import Mathlib

/-!
Verification of the input-extraction logic of `pkg/cmd/workflow/run/run.go`
(function `findInputs` and type `WorkflowInput`).

The embedding starts from the parsed document tree: `findInputs` in the source
first calls `yaml.Unmarshal` (gopkg.in/yaml.v3) to obtain a `yaml.Node`; here a
parsed node is modelled by `YNode` (kind, scalar value, ordered children), and
the Lean `findInputs` takes the already-parsed root node.  Everything from the
root-shape check (`len(rootNode.Content) != 1`) onward is translated
statement by statement from the Go source; `yaml.Node.Decode` into
`map[string]WorkflowInput` is modelled by `decodeInputs`, following yaml.v3
decoding rules for that target type: a `!!null` scalar zero-sets a map target
(nil map, no error); a mapping is decoded pairwise, struct fields matched by
their lowercased Go names with unknown fields ignored and later duplicate keys
overwriting earlier ones; a typed bool target accepts `!!bool` scalars and,
for YAML 1.1 compatibility, the `!!str` scalars `y/Y/yes/Yes/YES/on/On/ON`
(true) and `n/N/no/No/NO/off/Off/OFF` (false); null values leave the target at
its zero value without error (a null map-entry value or key skips the entry, a
null field value leaves the field); other type mismatches are type errors.
yaml.v3 accumulates type errors and reports them together at the end; the
model short-circuits at the first one, which returns an error exactly when
yaml.v3 does, with a representative message.
-/

/-- Kind of a parsed document node, mirroring the `yaml.Kind` values used by
the traversal (document, mapping, sequence, scalar). -/
inductive YKind where
  | scalar
  | mapping
  | sequence
  | document
deriving DecidableEq, Repr

/-- A parsed document node: models `yaml.Node` with the four fields the code
depends on (`Kind`, `Tag` as resolved by the parser, `Value`, `Content`).
Mapping nodes store their keys and values as a flat alternating child list,
exactly as yaml.v3 does.  The traversal reads only `Value` and `Content`; the
decoder additionally consults `Kind` and the resolved `Tag` (for example
`!!null` for a plain empty/`~`/`null` scalar, `!!bool` for plain
`true`/`false`, `!!str` for quoted or plain textual scalars). -/
inductive YNode where
  | mk (kind : YKind) (tag : String) (value : String) (content : List YNode)
deriving Repr

/-- Projection for the `Kind` field of a node. -/
def YNode.kind : YNode → YKind
  | .mk k _ _ _ => k

/-- Projection for the resolved `Tag` field of a node. -/
def YNode.tag : YNode → String
  | .mk _ t _ _ => t

/-- Projection for the `Value` field of a node (empty for non-scalars). -/
def YNode.value : YNode → String
  | .mk _ _ v _ => v

/-- Projection for the `Content` field of a node (the ordered children). -/
def YNode.content : YNode → List YNode
  | .mk _ _ _ c => c

/-- Model of `strings.EqualFold`, the case-insensitive comparison used for the
`on` key: both strings are compared after character-wise lowercasing.  For the
letters occurring in `"on"` (`o`/`O`, `n`/`N`) Unicode simple case folding
coincides with ASCII lowercasing, so this is faithful for that use. -/
def eqFold (a b : String) : Bool :=
  a.toList.map Char.toLower == b.toList.map Char.toLower

/-- The `WorkflowInput` struct of the source: `Required bool`, `Default string`,
`Description string`. -/
structure WorkflowInput where
  Required : Bool
  Default : String
  Description : String
deriving DecidableEq, Repr

/-- Decoding a node into a Go `bool` field, per yaml.v3 `decoder.scalar` with a
`reflect.Bool` target.  `Except.ok none` models the null path: unmarshalling a
`!!null` scalar into a bool returns not-good without a type error, leaving the
field untouched.  A `!!bool` scalar (`true`/`True`/`TRUE`,
`false`/`False`/`FALSE`) sets the field; a `!!str` scalar is accepted through
the YAML 1.1 compatibility list (`y/Y/yes/Yes/YES/on/On/ON` as true,
`n/N/no/No/NO/off/Off/OFF` as false); anything else is a type error. -/
def decodeBool (n : YNode) : Except String (Option Bool) :=
  if n.tag = "!!null" then Except.ok none
  else if n.kind = YKind.scalar ∧ n.tag = "!!bool" then
    if n.value = "true" ∨ n.value = "True" ∨ n.value = "TRUE" then Except.ok (some true)
    else if n.value = "false" ∨ n.value = "False" ∨ n.value = "FALSE" then Except.ok (some false)
    else Except.error ("cannot decode `" ++ n.value ++ "` as a !!bool")
  else if n.kind = YKind.scalar ∧ n.tag = "!!str" then
    if n.value ∈ ["y", "Y", "yes", "Yes", "YES", "on", "On", "ON"] then Except.ok (some true)
    else if n.value ∈ ["n", "N", "no", "No", "NO", "off", "Off", "OFF"] then Except.ok (some false)
    else Except.error ("cannot unmarshal !!str `" ++ n.value ++ "` into bool")
  else Except.error "cannot unmarshal node into bool"

/-- Decoding a node into a Go `string` field, per yaml.v3: a `!!null` scalar
leaves the field untouched without error (`Except.ok none`); any other scalar
decodes to its text; a non-scalar is a type error. -/
def decodeString (n : YNode) : Except String (Option String) :=
  if n.tag = "!!null" then Except.ok none
  else if n.kind = YKind.scalar then Except.ok (some n.value)
  else Except.error "cannot unmarshal non-scalar node into string"

/-- Decoding the alternating key/value children of a mapping node into the
fields of a `WorkflowInput`, per yaml.v3 struct decoding: keys are matched
against the lowercased Go field names (`required`, `default`, `description`),
unknown keys are ignored, a null key or null field value skips that pair
without error, and missing fields keep the zero value carried in `acc`. -/
def decodeWorkflowInputFields : List YNode → WorkflowInput → Except String WorkflowInput
  | [], acc => Except.ok acc
  | [_], _ => Except.error "malformed mapping node"
  | k :: v :: rest, acc =>
    if k.tag = "!!null" then decodeWorkflowInputFields rest acc
    else if k.kind = YKind.scalar then
      if k.value = "required" then
        match decodeBool v with
        | Except.ok (some b) => decodeWorkflowInputFields rest { acc with Required := b }
        | Except.ok none => decodeWorkflowInputFields rest acc
        | Except.error e => Except.error e
      else if k.value = "default" then
        match decodeString v with
        | Except.ok (some s) => decodeWorkflowInputFields rest { acc with Default := s }
        | Except.ok none => decodeWorkflowInputFields rest acc
        | Except.error e => Except.error e
      else if k.value = "description" then
        match decodeString v with
        | Except.ok (some s) => decodeWorkflowInputFields rest { acc with Description := s }
        | Except.ok none => decodeWorkflowInputFields rest acc
        | Except.error e => Except.error e
      else decodeWorkflowInputFields rest acc
    else Except.error "cannot unmarshal non-scalar mapping key"

/-- Decoding a map-entry value into a single `WorkflowInput`, per yaml.v3: a
`!!null` value is not-good without a type error, so the map entry is skipped
(`Except.ok none`); a mapping is decoded field by field starting from Go zero
values; any other node is a type error. -/
def decodeWorkflowInput (n : YNode) : Except String (Option WorkflowInput) :=
  if n.tag = "!!null" then Except.ok none
  else if n.kind = YKind.mapping then
    match decodeWorkflowInputFields n.content (WorkflowInput.mk false "" "") with
    | Except.ok w => Except.ok (some w)
    | Except.error e => Except.error e
  else Except.error "cannot unmarshal non-mapping node into struct"

/-- Insertion into the association list used to model the Go
`map[string]WorkflowInput`: a later value for an existing key overwrites the
earlier one, as map assignment does. -/
def insertInput : List (String × WorkflowInput) → String → WorkflowInput → List (String × WorkflowInput)
  | [], k, v => [(k, v)]
  | (k2, v2) :: rest, k, v =>
    if k2 = k then (k, v) :: rest else (k2, v2) :: insertInput rest k v

/-- Decoding the alternating key/value children of the inputs mapping node into
map entries, per yaml.v3 `decoder.mapping`: a null key skips the entry, any
other scalar key gives the input name, a non-scalar key is a type error; a
value that decodes to `none` (null) skips the entry without error. -/
def decodeInputsPairs : List YNode → List (String × WorkflowInput) → Except String (List (String × WorkflowInput))
  | [], acc => Except.ok acc
  | [_], _ => Except.error "malformed mapping node"
  | k :: v :: rest, acc =>
    if k.tag = "!!null" then decodeInputsPairs rest acc
    else if k.kind = YKind.scalar then
      match decodeWorkflowInput v with
      | Except.ok (some w) => decodeInputsPairs rest (insertInput acc k.value w)
      | Except.ok none => decodeInputsPairs rest acc
      | Except.error e => Except.error e
    else Except.error "cannot unmarshal non-scalar mapping key"

/-- Model of `inputsMapNode.Decode(&out)` where `out` is the empty
`map[string]WorkflowInput`.  The result is the new value of the Go map
variable: a `!!null` scalar node zero-sets the map target — `out` becomes the
nil map — and returns no error (`Except.ok none`); a mapping node is decoded
pairwise (`Except.ok (some entries)`); any other node is a type error. -/
def decodeInputs (n : YNode) : Except String (Option (List (String × WorkflowInput))) :=
  if n.tag = "!!null" then Except.ok none
  else if n.kind = YKind.mapping then
    match decodeInputsPairs n.content [] with
    | Except.ok m => Except.ok (some m)
    | Except.error e => Except.error e
  else Except.error "cannot unmarshal non-mapping node into map"

/-- Innermost loop of the traversal (children of the node following the
`workflow_dispatch` match): while `inputsKeyNode` (first component of the
state) is nil, a child whose `Value` is `"inputs"` becomes `inputsKeyNode`;
once it is set, the next child becomes `inputsMapNode` and the loop breaks.
Returns the final `(inputsKeyNode, inputsMapNode)`. -/
def scanInputsAux : Option YNode → List YNode → Option YNode × Option YNode
  | k, [] => (k, none)
  | some k, node :: _ => (some k, some node)
  | none, node :: rest =>
    if node.value = "inputs" then scanInputsAux (some node) rest
    else scanInputsAux none rest

/-- Middle loop of the traversal (children of the node following the `on`
match): while `dispatchKeyNode` is nil, a child whose `Value` is
`"workflow_dispatch"` becomes `dispatchKeyNode`; once it is set, the inner loop
runs over the next child's children and the loop breaks.  Returns the final
`(dispatchKeyNode, inputsKeyNode, inputsMapNode)`. -/
def scanDispatchAux : Option YNode → List YNode → Option YNode × Option YNode × Option YNode
  | k, [] => (k, none, none)
  | some k, node :: _ =>
    (some k, (scanInputsAux none node.content).1, (scanInputsAux none node.content).2)
  | none, node :: rest =>
    if node.value = "workflow_dispatch" then scanDispatchAux (some node) rest
    else scanDispatchAux none rest

/-- Outer loop of the traversal (children of the single top-level node): while
`onKeyNode` is nil, a child whose `Value` equals `"on"` case-insensitively
(`strings.EqualFold`) becomes `onKeyNode`; once it is set, the middle loop runs
over the next child's children and the loop breaks.  Returns the final
`(onKeyNode, dispatchKeyNode, inputsKeyNode, inputsMapNode)`. -/
def scanOnAux : Option YNode → List YNode → Option YNode × Option YNode × Option YNode × Option YNode
  | k, [] => (k, none, none, none)
  | some k, node :: _ =>
    (some k, (scanDispatchAux none node.content).1,
     (scanDispatchAux none node.content).2.1, (scanDispatchAux none node.content).2.2)
  | none, node :: rest =>
    if eqFold node.value "on" then scanOnAux (some node) rest
    else scanOnAux none rest

/-- The extractor `findInputs` of the source, from the root-shape check onward,
over the parsed root node.  The Go function returns the pair
`(map[string]WorkflowInput, error)`; the first component models the map return
value (`nil` on every error path, and on success the map left in `out` by
`Decode` — which is the nil map when the inputs node is null) and the second
the error return value. -/
def findInputs (rootNode : YNode) : Option (List (String × WorkflowInput)) × Option String :=
  match rootNode.content with
  | [top] =>
    match scanOnAux none top.content with
    | (none, _, _, _) => (none, some "invalid workflow: no \x27on\x27 key")
    | (some _, none, _, _) =>
      (none, some "unable to manually run a workflow without a workflow_dispatch event")
    | (some _, some _, some _, some inputsMapNode) =>
      match decodeInputs inputsMapNode with
      | Except.ok out => (out, none)
      | Except.error e => (none, some ("could not decode workflow inputs: " ++ e))
    | (some _, some _, _, _) => (some [], none)
  | _ => (none, some "invalid yaml file")

/-- Textual scalar node (resolved tag `!!str`, as for plain keys and quoted or
plain textual values). -/
def yscalar (s : String) : YNode := YNode.mk YKind.scalar "!!str" s []

/-- Boolean scalar node (resolved tag `!!bool`, as for plain `true`/`false`). -/
def ybool (s : String) : YNode := YNode.mk YKind.scalar "!!bool" s []

/-- Null scalar node (resolved tag `!!null`, as for an empty, `~` or `null`
plain value). -/
def ynull : YNode := YNode.mk YKind.scalar "!!null" "" []

/-- Mapping node with the given alternating key/value children. -/
def ymap (cs : List YNode) : YNode := YNode.mk YKind.mapping "!!map" "" cs

/-- Document root node holding a single top-level node, the shape produced by
parsing a well-formed single-document file. -/
def ydoc (top : YNode) : YNode := YNode.mk YKind.document "" "" [top]

/-- The `inputs` value used by the canonical one-input document:
`{ name: { required: true, default: "", description: "who" } }` (plain `true`
resolves to `!!bool`, the quoted `""` and `who` to `!!str`). -/
def nameInputsMapNode : YNode :=
  ymap [yscalar "name",
        ymap [yscalar "required", ybool "true",
              yscalar "default", yscalar "",
              yscalar "description", yscalar "who"]]

/-- Scanning children none of which has `Value` `"inputs"` finds neither the
`inputs` key nor a following map node. -/
theorem scanInputsAux_no_match (l : List YNode) (h : ∀ n ∈ l, n.value ≠ "inputs") :
    scanInputsAux none l = (none, none) := by
  induction l with
  | nil => rfl
  | cons a rest ih =>
    have ha : a.value ≠ "inputs" := h a (by simp)
    simp only [scanInputsAux, if_neg ha]
    exact ih (fun n hn => h n (by simp [hn]))

/-- Scanning children none of which has `Value` `"workflow_dispatch"` finds
nothing at the dispatch level or below. -/
theorem scanDispatchAux_no_match (l : List YNode) (h : ∀ n ∈ l, n.value ≠ "workflow_dispatch") :
    scanDispatchAux none l = (none, none, none) := by
  induction l with
  | nil => rfl
  | cons a rest ih =>
    have ha : a.value ≠ "workflow_dispatch" := h a (by simp)
    simp only [scanDispatchAux, if_neg ha]
    exact ih (fun n hn => h n (by simp [hn]))

/-- Scanning children none of which matches `"on"` case-insensitively finds
nothing at any level. -/
theorem scanOnAux_no_match (l : List YNode) (h : ∀ n ∈ l, eqFold n.value "on" = false) :
    scanOnAux none l = (none, none, none, none) := by
  induction l with
  | nil => rfl
  | cons a rest ih =>
    have ha : eqFold a.value "on" = false := h a (by simp)
    simp only [scanOnAux, ha, Bool.false_eq_true, if_false]
    exact ih (fun n hn => h n (by simp [hn]))

/-- When the first `"inputs"` match is `k`, the scan pairs it with the node `v`
immediately following it. -/
theorem scanInputsAux_locate (pre : List YNode) (k v : YNode) (post : List YNode)
    (h : ∀ n ∈ pre, n.value ≠ "inputs") (hk : k.value = "inputs") :
    scanInputsAux none (pre ++ k :: v :: post) = (some k, some v) := by
  induction pre with
  | nil => simp only [List.nil_append, scanInputsAux, if_pos hk]
  | cons a rest ih =>
    have ha : a.value ≠ "inputs" := h a (by simp)
    simp only [List.cons_append, scanInputsAux, if_neg ha]
    exact ih (fun n hn => h n (by simp [hn]))

/-- When the first `"workflow_dispatch"` match is `k`, the scan descends into
the children of the node `v` immediately following it. -/
theorem scanDispatchAux_locate (pre : List YNode) (k v : YNode) (post : List YNode)
    (h : ∀ n ∈ pre, n.value ≠ "workflow_dispatch") (hk : k.value = "workflow_dispatch") :
    scanDispatchAux none (pre ++ k :: v :: post) =
      (some k, (scanInputsAux none v.content).1, (scanInputsAux none v.content).2) := by
  induction pre with
  | nil => simp only [List.nil_append, scanDispatchAux, if_pos hk]
  | cons a rest ih =>
    have ha : a.value ≠ "workflow_dispatch" := h a (by simp)
    simp only [List.cons_append, scanDispatchAux, if_neg ha]
    exact ih (fun n hn => h n (by simp [hn]))

/-- When the first case-insensitive `"on"` match is `k`, the scan descends into
the children of the node `v` immediately following it. -/
theorem scanOnAux_locate (pre : List YNode) (k v : YNode) (post : List YNode)
    (h : ∀ n ∈ pre, eqFold n.value "on" = false) (hk : eqFold k.value "on" = true) :
    scanOnAux none (pre ++ k :: v :: post) =
      (some k, (scanDispatchAux none v.content).1,
       (scanDispatchAux none v.content).2.1, (scanDispatchAux none v.content).2.2) := by
  induction pre with
  | nil => simp only [List.nil_append, scanOnAux, hk, if_true]
  | cons a rest ih =>
    have ha : eqFold a.value "on" = false := h a (by simp)
    simp only [List.cons_append, scanOnAux, ha, Bool.false_eq_true, if_false]
    exact ih (fun n hn => h n (by simp [hn]))

/-- Claim C2: for every document parsing to a single top-level mapping none of
whose children matches `on` case-insensitively, `findInputs` returns the
missing-trigger error `invalid workflow: no 'on' key` and no inputs mapping. -/
theorem c2_missing_on_error (root top : YNode)
    (hroot : root.content = [top])
    (h : ∀ n ∈ top.content, eqFold n.value "on" = false) :
    findInputs root = (none, some "invalid workflow: no \x27on\x27 key") := by
  have hs : scanOnAux none top.content = (none, none, none, none) := scanOnAux_no_match _ h
  simp [findInputs, hroot, hs]

/-- Witness for C2 at the concrete document `{ name: x }`. -/
theorem c2_missing_on_error_witness :
    findInputs (ydoc (ymap [yscalar "name", yscalar "x"])) =
      (none, some "invalid workflow: no \x27on\x27 key") :=
  c2_missing_on_error (ydoc (ymap [yscalar "name", yscalar "x"]))
    (ymap [yscalar "name", yscalar "x"]) rfl (by decide)

/-- Helper: with `on` located and no `workflow_dispatch` match among the
children of the node following it, `findInputs` returns the
not-manually-runnable error.  Shared by the proofs about that error path. -/
theorem findInputs_no_dispatch (root top onKey onVal : YNode) (pre0 post0 : List YNode)
    (hroot : root.content = [top])
    (htop : top.content = pre0 ++ onKey :: onVal :: post0)
    (hpre0 : ∀ n ∈ pre0, eqFold n.value "on" = false)
    (hon : eqFold onKey.value "on" = true)
    (hwd : ∀ n ∈ onVal.content, n.value ≠ "workflow_dispatch") :
    findInputs root =
      (none, some "unable to manually run a workflow without a workflow_dispatch event") := by
  have hs : scanOnAux none top.content = (some onKey, none, none, none) := by
    rw [htop, scanOnAux_locate pre0 onKey onVal post0 hpre0 hon,
        scanDispatchAux_no_match _ hwd]
  simp [findInputs, hroot, hs]

/-- Claim C3: for every document in which the `on` key is found but scanning
the node immediately following it yields no `workflow_dispatch` match,
`findInputs` returns the not-manually-runnable error, which differs from the
missing-trigger error. -/
theorem c3_no_dispatch_error (root top onKey onVal : YNode) (pre0 post0 : List YNode)
    (hroot : root.content = [top])
    (htop : top.content = pre0 ++ onKey :: onVal :: post0)
    (hpre0 : ∀ n ∈ pre0, eqFold n.value "on" = false)
    (hon : eqFold onKey.value "on" = true)
    (hwd : ∀ n ∈ onVal.content, n.value ≠ "workflow_dispatch") :
    findInputs root =
        (none, some "unable to manually run a workflow without a workflow_dispatch event") ∧
      "unable to manually run a workflow without a workflow_dispatch event" ≠
        "invalid workflow: no \x27on\x27 key" :=
  ⟨findInputs_no_dispatch root top onKey onVal pre0 post0 hroot htop hpre0 hon hwd, by decide⟩

/-- Witness for C3 at the concrete document `{ on: { push: {} } }`. -/
theorem c3_no_dispatch_error_witness :
    findInputs (ydoc (ymap [yscalar "on", ymap [yscalar "push", ymap []]])) =
        (none, some "unable to manually run a workflow without a workflow_dispatch event") ∧
      "unable to manually run a workflow without a workflow_dispatch event" ≠
        "invalid workflow: no \x27on\x27 key" :=
  c3_no_dispatch_error (ydoc (ymap [yscalar "on", ymap [yscalar "push", ymap []]]))
    (ymap [yscalar "on", ymap [yscalar "push", ymap []]])
    (yscalar "on") (ymap [yscalar "push", ymap []]) [] []
    rfl rfl (by decide) (by decide) (by decide)

/-- Helper: with `on` and `workflow_dispatch` located and no `inputs` match
among the children of the node following `workflow_dispatch`, `findInputs`
returns the empty mapping and no error. -/
theorem findInputs_no_inputs (root top onKey onVal wdKey wdVal : YNode)
    (pre0 post0 pre1 post1 : List YNode)
    (hroot : root.content = [top])
    (htop : top.content = pre0 ++ onKey :: onVal :: post0)
    (hpre0 : ∀ n ∈ pre0, eqFold n.value "on" = false)
    (hon : eqFold onKey.value "on" = true)
    (hval : onVal.content = pre1 ++ wdKey :: wdVal :: post1)
    (hpre1 : ∀ n ∈ pre1, n.value ≠ "workflow_dispatch")
    (hwd : wdKey.value = "workflow_dispatch")
    (hin : ∀ n ∈ wdVal.content, n.value ≠ "inputs") :
    findInputs root = (some [], none) := by
  have hs : scanOnAux none top.content = (some onKey, some wdKey, none, none) := by
    rw [htop, scanOnAux_locate pre0 onKey onVal post0 hpre0 hon, hval,
        scanDispatchAux_locate pre1 wdKey wdVal post1 hpre1 hwd,
        scanInputsAux_no_match _ hin]
  simp [findInputs, hroot, hs]

/-- Helper: with `on`, `workflow_dispatch` and `inputs` all located by the
scan, the final scan state holds all three key nodes and the node following
`inputs`. -/
theorem scanOnAux_located_all (top onKey onVal wdKey wdVal inKey inVal : YNode)
    (pre0 post0 pre1 post1 pre2 post2 : List YNode)
    (htop : top.content = pre0 ++ onKey :: onVal :: post0)
    (hpre0 : ∀ n ∈ pre0, eqFold n.value "on" = false)
    (hon : eqFold onKey.value "on" = true)
    (hval : onVal.content = pre1 ++ wdKey :: wdVal :: post1)
    (hpre1 : ∀ n ∈ pre1, n.value ≠ "workflow_dispatch")
    (hwd : wdKey.value = "workflow_dispatch")
    (hwv : wdVal.content = pre2 ++ inKey :: inVal :: post2)
    (hpre2 : ∀ n ∈ pre2, n.value ≠ "inputs")
    (hin : inKey.value = "inputs") :
    scanOnAux none top.content = (some onKey, some wdKey, some inKey, some inVal) := by
  rw [htop, scanOnAux_locate pre0 onKey onVal post0 hpre0 hon, hval,
      scanDispatchAux_locate pre1 wdKey wdVal post1 hpre1 hwd, hwv,
      scanInputsAux_locate pre2 inKey inVal post2 hpre2 hin]

/-- Helper: with all three keys located and the node following `inputs`
decoding without error, `findInputs` returns the map value `Decode` left in
`out` (nil for a null node, the decoded entries for a mapping) and no
error. -/
theorem findInputs_decode_ok (root top onKey onVal wdKey wdVal inKey inVal : YNode)
    (pre0 post0 pre1 post1 pre2 post2 : List YNode)
    (out : Option (List (String × WorkflowInput)))
    (hroot : root.content = [top])
    (htop : top.content = pre0 ++ onKey :: onVal :: post0)
    (hpre0 : ∀ n ∈ pre0, eqFold n.value "on" = false)
    (hon : eqFold onKey.value "on" = true)
    (hval : onVal.content = pre1 ++ wdKey :: wdVal :: post1)
    (hpre1 : ∀ n ∈ pre1, n.value ≠ "workflow_dispatch")
    (hwd : wdKey.value = "workflow_dispatch")
    (hwv : wdVal.content = pre2 ++ inKey :: inVal :: post2)
    (hpre2 : ∀ n ∈ pre2, n.value ≠ "inputs")
    (hin : inKey.value = "inputs")
    (hdec : decodeInputs inVal = Except.ok out) :
    findInputs root = (out, none) := by
  have hs := scanOnAux_located_all top onKey onVal wdKey wdVal inKey inVal
    pre0 post0 pre1 post1 pre2 post2 htop hpre0 hon hval hpre1 hwd hwv hpre2 hin
  simp [findInputs, hroot, hs, hdec]

/-- Helper: with all three keys located and the node following `inputs`
failing to decode, `findInputs` returns the wrapped decode error. -/
theorem findInputs_decode_error (root top onKey onVal wdKey wdVal inKey inVal : YNode)
    (pre0 post0 pre1 post1 pre2 post2 : List YNode) (e : String)
    (hroot : root.content = [top])
    (htop : top.content = pre0 ++ onKey :: onVal :: post0)
    (hpre0 : ∀ n ∈ pre0, eqFold n.value "on" = false)
    (hon : eqFold onKey.value "on" = true)
    (hval : onVal.content = pre1 ++ wdKey :: wdVal :: post1)
    (hpre1 : ∀ n ∈ pre1, n.value ≠ "workflow_dispatch")
    (hwd : wdKey.value = "workflow_dispatch")
    (hwv : wdVal.content = pre2 ++ inKey :: inVal :: post2)
    (hpre2 : ∀ n ∈ pre2, n.value ≠ "inputs")
    (hin : inKey.value = "inputs")
    (hdec : decodeInputs inVal = Except.error e) :
    findInputs root = (none, some ("could not decode workflow inputs: " ++ e)) := by
  have hs := scanOnAux_located_all top onKey onVal wdKey wdVal inKey inVal
    pre0 post0 pre1 post1 pre2 post2 htop hpre0 hon hval hpre1 hwd hwv hpre2 hin
  simp [findInputs, hroot, hs, hdec]

/-- Claim C4: for every document in which `on` and `workflow_dispatch` are both
found but no child of the node following `workflow_dispatch` has value
`inputs`, `findInputs` returns the empty mapping and no error. -/
theorem c4_no_inputs_empty (root top onKey onVal wdKey wdVal : YNode)
    (pre0 post0 pre1 post1 : List YNode)
    (hroot : root.content = [top])
    (htop : top.content = pre0 ++ onKey :: onVal :: post0)
    (hpre0 : ∀ n ∈ pre0, eqFold n.value "on" = false)
    (hon : eqFold onKey.value "on" = true)
    (hval : onVal.content = pre1 ++ wdKey :: wdVal :: post1)
    (hpre1 : ∀ n ∈ pre1, n.value ≠ "workflow_dispatch")
    (hwd : wdKey.value = "workflow_dispatch")
    (hin : ∀ n ∈ wdVal.content, n.value ≠ "inputs") :
    findInputs root = (some [], none) :=
  findInputs_no_inputs root top onKey onVal wdKey wdVal pre0 post0 pre1 post1
    hroot htop hpre0 hon hval hpre1 hwd hin

/-- Witness for C4 at the concrete document `{ on: { workflow_dispatch: {} } }`. -/
theorem c4_no_inputs_empty_witness :
    findInputs (ydoc (ymap [yscalar "on", ymap [yscalar "workflow_dispatch", ymap []]])) =
      (some [], none) :=
  c4_no_inputs_empty (ydoc (ymap [yscalar "on", ymap [yscalar "workflow_dispatch", ymap []]]))
    (ymap [yscalar "on", ymap [yscalar "workflow_dispatch", ymap []]])
    (yscalar "on") (ymap [yscalar "workflow_dispatch", ymap []])
    (yscalar "workflow_dispatch") (ymap []) [] [] [] []
    rfl rfl (by decide) (by decide) rfl (by decide) rfl (by decide)

/-- Claim C6: for every parsed root whose number of top-level content nodes is
not one, `findInputs` returns the format error `invalid yaml file`, whatever
the inner content. -/
theorem c6_root_shape_error (root : YNode) (h : root.content.length ≠ 1) :
    findInputs root = (none, some "invalid yaml file") := by
  match hc : root.content with
  | [] => simp [findInputs, hc]
  | [a] => rw [hc] at h; simp at h
  | a :: b :: l => simp [findInputs, hc]

/-- Witness for C6 at the concrete empty root node. -/
theorem c6_root_shape_error_witness :
    findInputs (YNode.mk YKind.document "" "" []) = (none, some "invalid yaml file") :=
  c6_root_shape_error (YNode.mk YKind.document "" "" []) (by decide)

/-- Claim C9: for every document in which the node immediately following the
matched `on` key has no children (for example the scalar form
`on: workflow_dispatch`), `findInputs` returns the not-manually-runnable
error. -/
theorem c9_scalar_on_value (root top onKey onVal : YNode) (pre0 post0 : List YNode)
    (hroot : root.content = [top])
    (htop : top.content = pre0 ++ onKey :: onVal :: post0)
    (hpre0 : ∀ n ∈ pre0, eqFold n.value "on" = false)
    (hon : eqFold onKey.value "on" = true)
    (hempty : onVal.content = []) :
    findInputs root =
      (none, some "unable to manually run a workflow without a workflow_dispatch event") :=
  findInputs_no_dispatch root top onKey onVal pre0 post0 hroot htop hpre0 hon
    (by rw [hempty]; intro n hn; cases hn)

/-- Witness for C9 at the concrete document `on: workflow_dispatch` (scalar
trigger form). -/
theorem c9_scalar_on_value_witness :
    findInputs (ydoc (ymap [yscalar "on", yscalar "workflow_dispatch"])) =
      (none, some "unable to manually run a workflow without a workflow_dispatch event") :=
  c9_scalar_on_value (ydoc (ymap [yscalar "on", yscalar "workflow_dispatch"]))
    (ymap [yscalar "on", yscalar "workflow_dispatch"])
    (yscalar "on") (yscalar "workflow_dispatch") [] []
    rfl rfl (by decide) (by decide) rfl

/-- Counterexample to claim C10: for the document
`on: { workflow_dispatch: { inputs: } }`, whose `inputs` value is a null
scalar, `Decode` zero-sets the map and returns no error, so `findInputs`
returns a nil mapping together with a nil error — refuting the direction
"whenever it returns nil error the returned mapping is non-nil". -/
theorem c10_nil_nil_counterexample :
    findInputs (ydoc (ymap [yscalar "on",
        ymap [yscalar "workflow_dispatch", ymap [yscalar "inputs", ynull]]])) = (none, none) ∧
      ¬ ∀ root : YNode, (findInputs root).2 = none → (findInputs root).1 ≠ none := by
  constructor
  · decide
  · intro h
    have hb := h (ydoc (ymap [yscalar "on",
      ymap [yscalar "workflow_dispatch", ymap [yscalar "inputs", ynull]]])) (by decide)
    exact hb (by decide)

/-- Claim C10 (amended): for every parsed root, `findInputs` returns at most
one of a mapping or an error — a non-nil error always comes with a nil
mapping, and a non-nil mapping always comes with a nil error — but both can be
nil: when the `inputs` value is a null scalar, `Decode` sets the map to nil
and returns no error. -/
theorem c10_at_most_one_result (root : YNode) :
    ((findInputs root).2 ≠ none → (findInputs root).1 = none) ∧
      ((findInputs root).1 ≠ none → (findInputs root).2 = none) := by
  unfold findInputs
  repeat' split
  all_goals simp

/-- Witness for the amended C10: the empty root (non-nil error, so nil
mapping) and the inputs-free dispatch document (non-nil mapping, so nil
error). -/
theorem c10_at_most_one_result_witness :
    (findInputs (YNode.mk YKind.document "" "" [])).1 = none ∧
      (findInputs (ydoc (ymap [yscalar "on",
        ymap [yscalar "workflow_dispatch", ymap []]]))).2 = none :=
  ⟨(c10_at_most_one_result (YNode.mk YKind.document "" "" [])).1 (by decide),
   (c10_at_most_one_result (ydoc (ymap [yscalar "on",
     ymap [yscalar "workflow_dispatch", ymap []]]))).2 (by decide)⟩

/-- Claim C1: for every document whose single top-level mapping has the key
`on` located by the scan, whose value has `workflow_dispatch` located, whose
value has `inputs` located, with the node following `inputs` being
`{ name: { required: true, default: "", description: "who" } }`, `findInputs`
returns, with no error, the mapping with exactly the one entry
`name ↦ (Required = true, Default = "", Description = "who")`. -/
theorem c1_single_input (root top onKey onVal wdKey wdVal inKey : YNode)
    (pre0 post0 pre1 post1 pre2 post2 : List YNode)
    (hroot : root.content = [top])
    (htop : top.content = pre0 ++ onKey :: onVal :: post0)
    (hpre0 : ∀ n ∈ pre0, eqFold n.value "on" = false)
    (hon : eqFold onKey.value "on" = true)
    (hval : onVal.content = pre1 ++ wdKey :: wdVal :: post1)
    (hpre1 : ∀ n ∈ pre1, n.value ≠ "workflow_dispatch")
    (hwd : wdKey.value = "workflow_dispatch")
    (hwv : wdVal.content = pre2 ++ inKey :: nameInputsMapNode :: post2)
    (hpre2 : ∀ n ∈ pre2, n.value ≠ "inputs")
    (hin : inKey.value = "inputs") :
    findInputs root = (some [("name", WorkflowInput.mk true "" "who")], none) :=
  findInputs_decode_ok root top onKey onVal wdKey wdVal inKey nameInputsMapNode
    pre0 post0 pre1 post1 pre2 post2 (some [("name", WorkflowInput.mk true "" "who")])
    hroot htop hpre0 hon hval hpre1 hwd hwv hpre2 hin rfl

/-- Witness for C1 at the canonical concrete document
`{ on: { workflow_dispatch: { inputs: { name: { required: true, default: "",
description: "who" } } } } }`. -/
theorem c1_single_input_witness :
    findInputs (ydoc (ymap [yscalar "on",
        ymap [yscalar "workflow_dispatch", ymap [yscalar "inputs", nameInputsMapNode]]])) =
      (some [("name", WorkflowInput.mk true "" "who")], none) :=
  c1_single_input
    (ydoc (ymap [yscalar "on",
      ymap [yscalar "workflow_dispatch", ymap [yscalar "inputs", nameInputsMapNode]]]))
    (ymap [yscalar "on",
      ymap [yscalar "workflow_dispatch", ymap [yscalar "inputs", nameInputsMapNode]]])
    (yscalar "on")
    (ymap [yscalar "workflow_dispatch", ymap [yscalar "inputs", nameInputsMapNode]])
    (yscalar "workflow_dispatch") (ymap [yscalar "inputs", nameInputsMapNode])
    (yscalar "inputs") [] [] [] [] [] []
    rfl rfl (by decide) (by decide) rfl (by decide) rfl rfl (by decide) rfl

/-- Claim C8: for every document in which `on`, `workflow_dispatch` and
`inputs` are all located but the node following `inputs` fails to decode into
the input mapping, `findInputs` returns the error message prefixed
`could not decode workflow inputs` and no inputs mapping. -/
theorem c8_decode_error (root top onKey onVal wdKey wdVal inKey inVal : YNode)
    (pre0 post0 pre1 post1 pre2 post2 : List YNode) (e : String)
    (hroot : root.content = [top])
    (htop : top.content = pre0 ++ onKey :: onVal :: post0)
    (hpre0 : ∀ n ∈ pre0, eqFold n.value "on" = false)
    (hon : eqFold onKey.value "on" = true)
    (hval : onVal.content = pre1 ++ wdKey :: wdVal :: post1)
    (hpre1 : ∀ n ∈ pre1, n.value ≠ "workflow_dispatch")
    (hwd : wdKey.value = "workflow_dispatch")
    (hwv : wdVal.content = pre2 ++ inKey :: inVal :: post2)
    (hpre2 : ∀ n ∈ pre2, n.value ≠ "inputs")
    (hin : inKey.value = "inputs")
    (hdec : decodeInputs inVal = Except.error e) :
    findInputs root = (none, some ("could not decode workflow inputs: " ++ e)) :=
  findInputs_decode_error root top onKey onVal wdKey wdVal inKey inVal
    pre0 post0 pre1 post1 pre2 post2 e
    hroot htop hpre0 hon hval hpre1 hwd hwv hpre2 hin hdec

/-- Witness for C8 at the concrete document
`{ on: { workflow_dispatch: { inputs: oops } } }`, whose `inputs` value is a
scalar and so cannot decode into the input mapping. -/
theorem c8_decode_error_witness :
    findInputs (ydoc (ymap [yscalar "on",
        ymap [yscalar "workflow_dispatch", ymap [yscalar "inputs", yscalar "oops"]]])) =
      (none, some ("could not decode workflow inputs: " ++
        "cannot unmarshal non-mapping node into map")) :=
  c8_decode_error
    (ydoc (ymap [yscalar "on",
      ymap [yscalar "workflow_dispatch", ymap [yscalar "inputs", yscalar "oops"]]]))
    (ymap [yscalar "on",
      ymap [yscalar "workflow_dispatch", ymap [yscalar "inputs", yscalar "oops"]]])
    (yscalar "on")
    (ymap [yscalar "workflow_dispatch", ymap [yscalar "inputs", yscalar "oops"]])
    (yscalar "workflow_dispatch") (ymap [yscalar "inputs", yscalar "oops"])
    (yscalar "inputs") (yscalar "oops") [] [] [] [] [] []
    "cannot unmarshal non-mapping node into map"
    rfl rfl (by decide) (by decide) rfl (by decide) rfl rfl (by decide) rfl rfl

/-- Claim C5: matching of the `on` key is case-insensitive — every case
variant of `on` (exactly the strings `on`, `oN`, `On`, `ON`, those equal to
`on` up to case folding) is accepted — whereas `workflow_dispatch` and
`inputs` match only the exact lowercase strings: every other string, in
particular every other casing, fails to match, and the exact strings
succeed. -/
theorem c5_case_sensitivity :
    (∀ s : String, s ∈ ["on", "oN", "On", "ON"] →
      findInputs (ydoc (ymap [yscalar s, ymap [yscalar "workflow_dispatch", ymap []]])) =
        (some [], none)) ∧
    (∀ s : String, s ≠ "workflow_dispatch" →
      findInputs (ydoc (ymap [yscalar "on", ymap [yscalar s, ymap []]])) =
        (none, some "unable to manually run a workflow without a workflow_dispatch event")) ∧
    (∀ s : String, s ≠ "inputs" →
      findInputs (ydoc (ymap [yscalar "on",
          ymap [yscalar "workflow_dispatch", ymap [yscalar s, nameInputsMapNode]]])) =
        (some [], none)) ∧
    findInputs (ydoc (ymap [yscalar "on",
        ymap [yscalar "workflow_dispatch", ymap [yscalar "inputs", nameInputsMapNode]]])) =
      (some [("name", WorkflowInput.mk true "" "who")], none) := by
  refine ⟨?_, ?_, ?_, by decide⟩
  · intro s hs
    fin_cases hs <;> rfl
  · intro s hs
    refine findInputs_no_dispatch
      (ydoc (ymap [yscalar "on", ymap [yscalar s, ymap []]]))
      (ymap [yscalar "on", ymap [yscalar s, ymap []]])
      (yscalar "on") (ymap [yscalar s, ymap []]) [] []
      rfl rfl (by decide) (by decide) ?_
    intro n hn
    rcases List.mem_cons.mp hn with h1 | hn2
    · subst h1; exact hs
    · rcases List.mem_cons.mp hn2 with h2 | h3
      · subst h2; decide
      · cases h3
  · intro s hs
    refine findInputs_no_inputs
      (ydoc (ymap [yscalar "on",
        ymap [yscalar "workflow_dispatch", ymap [yscalar s, nameInputsMapNode]]]))
      (ymap [yscalar "on",
        ymap [yscalar "workflow_dispatch", ymap [yscalar s, nameInputsMapNode]]])
      (yscalar "on")
      (ymap [yscalar "workflow_dispatch", ymap [yscalar s, nameInputsMapNode]])
      (yscalar "workflow_dispatch") (ymap [yscalar s, nameInputsMapNode]) [] [] [] []
      rfl rfl (by decide) (by decide) rfl (by decide) rfl ?_
    intro n hn
    rcases List.mem_cons.mp hn with h1 | hn2
    · subst h1; exact hs
    · rcases List.mem_cons.mp hn2 with h2 | h3
      · subst h2; decide
      · cases h3

/-- Witness for C5 at the concrete strings `ON` (accepted case variant),
`Workflow_Dispatch` and `Inputs` (rejected non-lowercase casings). -/
theorem c5_case_sensitivity_witness :
    findInputs (ydoc (ymap [yscalar "ON", ymap [yscalar "workflow_dispatch", ymap []]])) =
        (some [], none) ∧
      findInputs (ydoc (ymap [yscalar "on", ymap [yscalar "Workflow_Dispatch", ymap []]])) =
        (none, some "unable to manually run a workflow without a workflow_dispatch event") ∧
      findInputs (ydoc (ymap [yscalar "on",
          ymap [yscalar "workflow_dispatch", ymap [yscalar "Inputs", nameInputsMapNode]]])) =
        (some [], none) :=
  ⟨c5_case_sensitivity.1 "ON" (by decide),
   c5_case_sensitivity.2.1 "Workflow_Dispatch" (by decide),
   c5_case_sensitivity.2.2.1 "Inputs" (by decide)⟩

/-- Counterexample to claim C7: in the document `{ foo: on, bar: baz }` the
string `on` occurs only in a value position, yet `findInputs` selects it as
the matched key: the outcome is the not-manually-runnable error, not the
missing-trigger error the claim predicts for a mapping in which `on` occurs
only as a value. -/
theorem c7_counterexample :
    findInputs (ydoc (ymap [yscalar "foo", yscalar "on", yscalar "bar", yscalar "baz"])) =
        (none, some "unable to manually run a workflow without a workflow_dispatch event") ∧
      findInputs (ydoc (ymap [yscalar "foo", yscalar "on", yscalar "bar", yscalar "baz"])) ≠
        (none, some "invalid workflow: no \x27on\x27 key") :=
  ⟨by decide, by decide⟩

/-- Claim C7 (amended): the traversal pairs each matched node with the node
immediately following it in the flat alternating child sequence, but matching
does not distinguish key from value positions: the first child whose text
matches (case-insensitively for `on`) is selected even when it stands in a
value position, and the scan descends into its successor.  Stated for a
top-level mapping whose second child — the value of the first key — matches
`on`: that value node is selected as the `on` key, and the third child (the
next key of the mapping) is scanned as though it were the `on` value. -/
theorem c7_value_position_match (root top k val next : YNode) (rest : List YNode)
    (hroot : root.content = [top])
    (htop : top.content = k :: val :: next :: rest)
    (hk : eqFold k.value "on" = false)
    (hval : eqFold val.value "on" = true)
    (hnext : ∀ n ∈ next.content, n.value ≠ "workflow_dispatch") :
    findInputs root =
      (none, some "unable to manually run a workflow without a workflow_dispatch event") :=
  findInputs_no_dispatch root top val next [k] rest hroot htop
    (by
      intro n hn
      rcases List.mem_cons.mp hn with h1 | h2
      · subst h1; exact hk
      · cases h2)
    hval hnext

/-- Witness for the amended C7 at the concrete document
`{ foo: on, bar: baz }`. -/
theorem c7_value_position_match_witness :
    findInputs (ydoc (ymap [yscalar "foo", yscalar "on", yscalar "bar", yscalar "baz"])) =
      (none, some "unable to manually run a workflow without a workflow_dispatch event") :=
  c7_value_position_match
    (ydoc (ymap [yscalar "foo", yscalar "on", yscalar "bar", yscalar "baz"]))
    (ymap [yscalar "foo", yscalar "on", yscalar "bar", yscalar "baz"])
    (yscalar "foo") (yscalar "on") (yscalar "bar") [yscalar "baz"]
    rfl rfl (by decide) (by decide) (by decide)

/-- Sanity check of the decode model: a null `inputs` value zero-sets the map
target — the map becomes nil — and produces no error. -/
theorem decodeInputs_null_is_nil_map : decodeInputs ynull = Except.ok none := rfl

/-- Sanity check of the decode model: the YAML 1.1 compatibility path decodes
the plain scalar `yes` (resolved `!!str`) into a typed bool as true. -/
theorem decodeBool_accepts_yes : decodeBool (yscalar "yes") = Except.ok (some true) := rfl

/-- Sanity check of the decode model: a map entry whose value is null is
skipped without error, so `inputs: { name: }` decodes to the empty map. -/
theorem decodeInputs_skips_null_entry :
    decodeInputs (ymap [yscalar "name", ynull]) = Except.ok (some []) := rfl

/-- Sanity check of the decode model: `required: yes` decodes without error to
a `WorkflowInput` with `Required = true`. -/
theorem decodeInputs_yes_required :
    decodeInputs (ymap [yscalar "name", ymap [yscalar "required", yscalar "yes"]]) =
      Except.ok (some [("name", WorkflowInput.mk true "" "")]) := rfl
